import Mathlib

/-!
Verification of the u32 libfunc lowering (src/libfuncs/uint32.rs).

This file shallowly embeds the MLIR-fragment generators of the u32 libfunc
lowering module and proves the specified properties about the fragments they
emit.  Each Rust builder (`build_const`, `build_operation`, `build_equal`,
`build_is_zero`, `build_divmod`, `build_to_felt252`, `build_from_felt252`)
appends a fixed sequence of MLIR operations to the entry block and terminates
with either an unconditional helper branch (`helper.br`), a two-way helper
branch (`helper.cond_br`), or — for `build_from_felt252` only — an internal
`cf.cond_br` into two freshly appended blocks each ending in a helper branch.

The embedding records, per builder, the emitted instruction list and the
terminator with its literal successor indices and argument lists (the `Val`
references mirror which SSA value the Rust code passes where).  A small
evaluator gives the emitted MLIR operations their standard semantics
(`llvm.intr.uadd.with.overflow`, `arith.cmpi`, `arith.divui`, …) so that
end-to-end behaviour of a fragment on concrete operand values can be proved.

The `LibfuncHelper` itself lives outside this module.  Modelled from the spec:
the Block-Exit Helper (spec §2) terminates a fragment with either one
unconditional successor edge or a conditional branch selecting among declared
successor edges; `helper.cond_br cond [i, j] [a, b]` selects successor `i`
with arguments `a` when `cond` is true and successor `j` with arguments `b`
otherwise.  This orientation (true branch listed first) is the only one
consistent with the repository's own tests (`u32_equal` expects the equal case
on branch 1, `u32_overflowing_add` expects overflow on branch 1,
`u32_is_zero` expects zero on branch 0).
-/

namespace Uint32

/-- SSA value handles inside one lowered fragment: `arg i` is the entry
block's i-th formal argument, `res i` the result of the i-th instruction
appended to the entry block, and `sres i` the result of the i-th instruction
of the current internal successor block (used only by `build_from_felt252`). -/
inductive Val where
  | arg : Nat → Val
  | res : Nat → Val
  | sres : Nat → Val
deriving DecidableEq

/-- Runtime values of the target IR: `int w v` is an integer of bit width `w`
holding `v`, and `pair w v f` is the two-field struct returned by the LLVM
add/sub-with-overflow intrinsics (wrapped `w`-bit result `v`, overflow flag
`f`). -/
inductive MVal where
  | int : Nat → Nat → MVal
  | pair : Nat → Nat → Bool → MVal
deriving DecidableEq

/-- The `arith.cmpi` predicates the module uses. -/
inductive CmpiPredicate where
  | Eq : CmpiPredicate
  | Ule : CmpiPredicate
deriving DecidableEq

/-- The kinds of MLIR operations the u32 builders emit.  `const w c` is an
`arith.constant` of width `w` holding literal `c`; `extui w` and `trunci w`
carry the destination width resolved through the type registry. -/
inductive OpKind where
  | const : Nat → Nat → OpKind
  | uaddWithOverflow : OpKind
  | usubWithOverflow : OpKind
  | extractValue : Nat → OpKind
  | cmpi : CmpiPredicate → OpKind
  | divui : OpKind
  | remui : OpKind
  | extui : Nat → OpKind
  | trunci : Nat → OpKind
deriving DecidableEq

/-- One emitted MLIR operation: its kind and its operand values. -/
structure Instr where
  kind : OpKind
  operands : List Val
deriving DecidableEq

/-- A Block-Exit Edge: the libfunc successor index passed to the helper and
the ordered argument list handed to that successor. -/
structure Edge where
  target : Nat
  args : List Val
deriving DecidableEq

/-- An internal successor block appended by a builder (only
`build_from_felt252` creates these): its instructions and the helper edge it
terminates with. -/
structure SubBlock where
  instrs : List Instr
  exit : Edge
deriving DecidableEq

/-- The terminator of a fragment's entry block:
a single helper branch, a two-way helper conditional branch
(true edge first — see the module docstring), or an internal `cf.cond_br`
into two fresh blocks (true block first). -/
inductive Term where
  | br : Edge → Term
  | condBr : Val → Edge → Edge → Term
  | condBlocks : Val → SubBlock → SubBlock → Term
deriving DecidableEq

/-- The complete fragment a builder emits: entry-block instructions in
emission order and the entry block's terminator. -/
structure Fragment where
  instrs : List Instr
  term : Term
deriving DecidableEq

/-- All helper edges a fragment can exit through. -/
def Term.edges : Term → List Edge
  | .br e => [e]
  | .condBr _ t f => [t, f]
  | .condBlocks _ t f => [t.exit, f.exit]

/-- Instructions emitted into internal successor blocks. -/
def Term.subInstrs : Term → List Instr
  | .condBlocks _ t f => t.instrs ++ f.instrs
  | _ => []

/-- All helper exit edges of a fragment. -/
def Fragment.edges (fr : Fragment) : List Edge := fr.term.edges

/-- Every instruction the fragment emits, in any of its blocks. -/
def Fragment.allInstrs (fr : Fragment) : List Instr :=
  fr.instrs ++ fr.term.subInstrs

/-- The Sierra `IntOperator` variants handled by `build_operation`. -/
inductive IntOperator where
  | OverflowingAdd : IntOperator
  | OverflowingSub : IntOperator
deriving DecidableEq

/-- The `op_name` match inside `build_operation`: which LLVM intrinsic is
emitted for each operator. -/
def op_kind : IntOperator → OpKind
  | .OverflowingAdd => .uaddWithOverflow
  | .OverflowingSub => .usubWithOverflow

/-- Fragment emitted by `build_const`: one `arith.constant` of the
registry-resolved result width, then `helper.br 0 [result]`. -/
def build_const (value : Nat) (value_ty : Nat) : Fragment :=
  { instrs := [⟨.const value_ty value, []⟩]
    term := .br ⟨0, [.res 0]⟩ }

/-- Fragment emitted by `build_operation`: the fused with-overflow intrinsic
on arguments 1 and 2 (argument 0 is the range check), extraction of the
wrapped result (struct field 0) and of the overflow flag (struct field 1),
then `helper.cond_br flag [1, 0]` passing `[range_check, wrapped]` on both
edges. -/
def build_operation (operator : IntOperator) : Fragment :=
  { instrs :=
      [⟨op_kind operator, [.arg 1, .arg 2]⟩,
       ⟨.extractValue 0, [.res 0]⟩,
       ⟨.extractValue 1, [.res 0]⟩]
    term := .condBr (.res 2) ⟨1, [.arg 0, .res 1]⟩ ⟨0, [.arg 0, .res 1]⟩ }

/-- Fragment emitted by `build_equal`: one `arith.cmpi eq` on the two
arguments, then `helper.cond_br [1, 0]` with empty argument lists. -/
def build_equal : Fragment :=
  { instrs := [⟨.cmpi .Eq, [.arg 0, .arg 1]⟩]
    term := .condBr (.res 0) ⟨1, []⟩ ⟨0, []⟩ }

/-- Fragment emitted by `build_is_zero`: an `arith.constant 0` of the
argument's width `w`, an `arith.cmpi eq` against it, then
`helper.cond_br [0, 1]` with the zero case (condition true) on successor 0
carrying nothing and the non-zero case on successor 1 carrying the original
argument. -/
def build_is_zero (w : Nat) : Fragment :=
  { instrs :=
      [⟨.const w 0, []⟩,
       ⟨.cmpi .Eq, [.arg 0, .res 0]⟩]
    term := .condBr (.res 1) ⟨0, []⟩ ⟨1, [.arg 0]⟩ }

/-- Fragment emitted by `build_divmod`: `arith.divui` and `arith.remui` on
arguments 1 and 2 as two separate instructions, then
`helper.br 0 [argument 0, quotient, remainder]`. -/
def build_divmod : Fragment :=
  { instrs :=
      [⟨.divui, [.arg 1, .arg 2]⟩,
       ⟨.remui, [.arg 1, .arg 2]⟩]
    term := .br ⟨0, [.arg 0, .res 0, .res 1]⟩ }

/-- Fragment emitted by `build_to_felt252`: one `arith.extui` of argument 0
to the registry-resolved felt252 backing width, then `helper.br 0 [result]`. -/
def build_to_felt252 (felt252_ty : Nat) : Fragment :=
  { instrs := [⟨.extui felt252_ty, [.arg 0]⟩]
    term := .br ⟨0, [.res 0]⟩ }

/-- Fragment emitted by `build_from_felt252`: an `arith.constant` holding
`u32::MAX` at the felt252 backing width, an `arith.cmpi ule` of argument 1
(the felt value; argument 0 is the range check) against it, then a
`cf.cond_br` into a success block — which truncates argument 1 to the result
width and exits on successor 0 with `[range_check, truncated]` — and a
failure block exiting on successor 1 with `[range_check]`. -/
def build_from_felt252 (felt252_ty : Nat) (result_ty : Nat) : Fragment :=
  { instrs :=
      [⟨.const felt252_ty 4294967295, []⟩,
       ⟨.cmpi .Ule, [.arg 1, .res 0]⟩]
    term := .condBlocks (.res 1)
      ⟨[⟨.trunci result_ty, [.arg 1]⟩], ⟨0, [.arg 0, .sres 0]⟩⟩
      ⟨[], ⟨1, [.arg 0]⟩⟩ }

/-- Comparison semantics of the `arith.cmpi` predicates used (unsigned
interpretation, as in MLIR). -/
def evalCmp : CmpiPredicate → Nat → Nat → Bool
  | .Eq, a, b => decide (a = b)
  | .Ule, a, b => decide (a ≤ b)

/-- Semantics of one emitted MLIR operation on already-evaluated operands.
Returns `none` on ill-typed uses or on target-level undefined behaviour
(division or remainder by zero). -/
def evalOp : OpKind → List MVal → Option MVal
  | .const w c, [] => some (.int w (c % 2 ^ w))
  | .uaddWithOverflow, [.int w a, .int w2 b] =>
      if w = w2 then
        some (.pair w ((a + b) % 2 ^ w) (decide (2 ^ w ≤ a + b)))
      else none
  | .usubWithOverflow, [.int w a, .int w2 b] =>
      if w = w2 then
        some (.pair w ((2 ^ w + a - b) % 2 ^ w) (decide (a < b)))
      else none
  | .extractValue 0, [.pair w v _] => some (.int w v)
  | .extractValue 1, [.pair _ _ f] => some (.int 1 (if f then 1 else 0))
  | .cmpi p, [.int w a, .int w2 b] =>
      if w = w2 then some (.int 1 (if evalCmp p a b then 1 else 0)) else none
  | .divui, [.int w a, .int w2 b] =>
      if w = w2 then if b = 0 then none else some (.int w (a / b)) else none
  | .remui, [.int w a, .int w2 b] =>
      if w = w2 then if b = 0 then none else some (.int w (a % b)) else none
  | .extui w2, [.int w a] => if w ≤ w2 then some (.int w2 a) else none
  | .trunci w2, [.int w a] =>
      if w2 ≤ w then some (.int w2 (a % 2 ^ w2)) else none
  | _, _ => none

/-- Resolve a `Val` reference given the entry arguments, the entry-block
results computed so far, and the current internal block's results. -/
def evalVal (args eRes sRes : List MVal) : Val → Option MVal
  | .arg i => args[i]?
  | .res i => eRes[i]?
  | .sres i => sRes[i]?

/-- Evaluate an operand list left to right; fails if any operand does. -/
def evalOperands (look : Val → Option MVal) : List Val → Option (List MVal)
  | [] => some []
  | v :: vs =>
      match look v, evalOperands look vs with
      | some m, some ms => some (m :: ms)
      | _, _ => none

/-- Run a straight-line instruction list, accumulating each instruction's
result; `look acc` resolves operand references given the results so far. -/
def runBlock (look : List MVal → Val → Option MVal) :
    List Instr → List MVal → Option (List MVal)
  | [], acc => some acc
  | instr :: rest, acc =>
      match evalOperands (look acc) instr.operands with
      | none => none
      | some ops =>
          match evalOp instr.kind ops with
          | none => none
          | some r => runBlock look rest (acc ++ [r])

/-- Evaluate an exit edge's argument list, yielding the pair the helper
receives: the successor index and the concrete argument values. -/
def evalEdge (look : Val → Option MVal) (e : Edge) : Option (Nat × List MVal) :=
  match evalOperands look e.args with
  | none => none
  | some ms => some (e.target, ms)

/-- Truthiness of an `i1` condition value. -/
def condTrue : MVal → Option Bool
  | .int 1 v => some (decide (v ≠ 0))
  | _ => none

/-- Run an internal successor block to its helper edge. -/
def runSub (args eRes : List MVal) (sb : SubBlock) : Option (Nat × List MVal) :=
  match runBlock (fun acc v => evalVal args eRes acc v) sb.instrs [] with
  | none => none
  | some sRes => evalEdge (evalVal args eRes sRes) sb.exit

/-- Run a whole fragment on concrete entry arguments, yielding the taken
successor index and the concrete argument values passed along its edge. -/
def runFragment (fr : Fragment) (args : List MVal) : Option (Nat × List MVal) :=
  match runBlock (fun acc v => evalVal args acc [] v) fr.instrs [] with
  | none => none
  | some eRes =>
      match fr.term with
      | .br e => evalEdge (evalVal args eRes []) e
      | .condBr c t f =>
          match evalVal args eRes [] c with
          | none => none
          | some cv =>
              match condTrue cv with
              | none => none
              | some b =>
                  if b then evalEdge (evalVal args eRes []) t
                  else evalEdge (evalVal args eRes []) f
      | .condBlocks c t f =>
          match evalVal args eRes [] c with
          | none => none
          | some cv =>
              match condTrue cv with
              | none => none
              | some b => if b then runSub args eRes t else runSub args eRes f

/-- The libfunc selector variants of `Uint32Concrete` as matched by `build`.
The payloads that `build` routes to the individual builders (the constant
value of `Const`, the operator of `Operation`) are carried here; payloads the
dispatcher forwards without inspecting them (signature data) are omitted. -/
inductive Uint32Concrete where
  | Const : Nat → Uint32Concrete
  | Operation : IntOperator → Uint32Concrete
  | SquareRoot : Uint32Concrete
  | Equal : Uint32Concrete
  | ToFelt252 : Uint32Concrete
  | FromFelt252 : Uint32Concrete
  | IsZero : Uint32Concrete
  | Divmod : Uint32Concrete
  | WideMul : Uint32Concrete
deriving DecidableEq

/-- Outcome of the dispatcher: either a built fragment, or the immediate
failure raised for the variants whose lowering is marked unimplemented in the
source (the Rust code panics there before emitting anything). -/
inductive BuildResult where
  | fragment : Fragment → BuildResult
  | unimplemented : BuildResult
deriving DecidableEq

/-- The dispatcher `build`: exhaustively matches the selector and invokes the
one corresponding builder.  The registry-resolved types that the individual
builders obtain from the external type collaborator (`felt252_ty`,
`result_ty`, the constant's `value_ty`, and the operand width `w` read off
the argument values) are passed as parameters. -/
def build (felt252_ty result_ty value_ty w : Nat) :
    Uint32Concrete → BuildResult
  | .Const c => .fragment (build_const c value_ty)
  | .Operation operator => .fragment (build_operation operator)
  | .SquareRoot => .unimplemented
  | .Equal => .fragment build_equal
  | .ToFelt252 => .fragment (build_to_felt252 felt252_ty)
  | .FromFelt252 => .fragment (build_from_felt252 felt252_ty result_ty)
  | .IsZero => .fragment (build_is_zero w)
  | .Divmod => .fragment build_divmod
  | .WideMul => .unimplemented

/-- Names for the seven implemented lowering routines. -/
inductive RoutineKind where
  | const : RoutineKind
  | operation : RoutineKind
  | equal : RoutineKind
  | isZero : RoutineKind
  | divmod : RoutineKind
  | toFelt252 : RoutineKind
  | fromFelt252 : RoutineKind
deriving DecidableEq

/-- Which entry-block argument a routine consumes as the range-check
capability.  From the source: `build_operation` and `build_from_felt252` bind
`entry.argument(0)` as `range_check`; `build_divmod` forwards
`entry.argument(0)` (its range check, with operands at indices 1 and 2); the
remaining four routines bind no range-check argument at all. -/
def rangeCheckParam : RoutineKind → Option Nat
  | .operation => some 0
  | .divmod => some 0
  | .fromFelt252 => some 0
  | _ => none

/-- The field-element prime modulus (from `types/felt252.rs`): every felt252
runtime value is below it. -/
def PRIME : Nat :=
  3618502788666131213697322783095070105623107215331596699973092056135872020481

/-- The wrapped (modular) result the fused with-overflow intrinsic produces
for each operator on 32-bit operands. -/
def wrappedVal : IntOperator → Nat → Nat → Nat
  | .OverflowingAdd, a, b => (a + b) % 2 ^ 32
  | .OverflowingSub, a, b => (2 ^ 32 + a - b) % 2 ^ 32

/-- The overflow flag the fused with-overflow intrinsic produces for each
operator on 32-bit operands. -/
def overflowFlag : IntOperator → Nat → Nat → Bool
  | .OverflowingAdd, a, b => decide (2 ^ 32 ≤ a + b)
  | .OverflowingSub, a, b => decide (a < b)

lemma runFragment_build_equal (w a b : Nat) :
    runFragment build_equal [.int w a, .int w b] =
      some (if a = b then (1, []) else (0, [])) := by
  by_cases h : a = b <;>
    simp [runFragment, build_equal, runBlock, evalOperands, evalVal, evalOp,
      evalCmp, condTrue, evalEdge, h]

lemma runFragment_build_is_zero (w v : Nat) :
    runFragment (build_is_zero w) [.int w v] =
      some (if v = 0 then (0, []) else (1, [.int w v])) := by
  by_cases h : v = 0 <;>
    simp [runFragment, build_is_zero, runBlock, evalOperands, evalVal, evalOp,
      evalCmp, condTrue, evalEdge, h]

lemma runFragment_build_operation (operator : IntOperator) (rc : MVal)
    (a b : Nat) :
    runFragment (build_operation operator) [rc, .int 32 a, .int 32 b] =
      some ((if overflowFlag operator a b then 1 else 0),
        [rc, .int 32 (wrappedVal operator a b)]) := by
  cases operator <;>
    simp [runFragment, build_operation, op_kind, runBlock, evalOperands,
      evalVal, evalOp, condTrue, evalEdge, overflowFlag, wrappedVal] <;>
    split <;> rfl

lemma runFragment_build_divmod (rc : MVal) (a b : Nat) (hb : b ≠ 0) :
    runFragment build_divmod [rc, .int 32 a, .int 32 b] =
      some (0, [rc, .int 32 (a / b), .int 32 (a % b)]) := by
  simp [runFragment, build_divmod, runBlock, evalOperands, evalVal, evalOp,
    evalEdge, hb]

lemma runFragment_build_to_felt252 (v : Nat) :
    runFragment (build_to_felt252 252) [.int 32 v] =
      some (0, [.int 252 v]) := by
  simp [runFragment, build_to_felt252, runBlock, evalOperands, evalVal,
    evalOp, evalEdge]

lemma runFragment_build_from_felt252 (rc : MVal) (v : Nat) :
    runFragment (build_from_felt252 252 32) [rc, .int 252 v] =
      some (if v ≤ 4294967295 then (0, [rc, .int 32 (v % 2 ^ 32)])
        else (1, [rc])) := by
  have hc : (4294967295 : Nat) % 2 ^ 252 = 4294967295 :=
    Nat.mod_eq_of_lt (by norm_num)
  by_cases h : v ≤ 4294967295 <;>
    simp [runFragment, build_from_felt252, runBlock, evalOperands, evalVal,
      evalOp, evalCmp, condTrue, evalEdge, runSub, hc, h]

/-- C1: for every pair of 32-bit unsigned values `a` and `b`, the fragment
built by `build_operation` produces the wrapped result `(a + b) mod 2^32`
for OverflowingAdd (respectively `(a - b) mod 2^32`, computed over ℤ, for
OverflowingSub), and the overflow successor (index 1) is taken exactly when
`a + b ≥ 2^32` (respectively when `a - b < 0`, i.e. `a < b`). -/
theorem overflowing_arithmetic_correct (rc : MVal) (a b : Nat)
    (ha : a < 2 ^ 32) (hb : b < 2 ^ 32) :
    runFragment (build_operation .OverflowingAdd) [rc, .int 32 a, .int 32 b] =
      some ((if 2 ^ 32 ≤ a + b then 1 else 0),
        [rc, .int 32 ((a + b) % 2 ^ 32)]) ∧
    runFragment (build_operation .OverflowingSub) [rc, .int 32 a, .int 32 b] =
      some ((if a < b then 1 else 0),
        [rc, .int 32 ((((a : ℤ) - (b : ℤ)) % 2 ^ 32).toNat)]) := by
  constructor
  · simpa [overflowFlag, wrappedVal] using
      runFragment_build_operation .OverflowingAdd rc a b
  · have e1 : ((2 ^ 32 + a - b) % 2 ^ 32 : ℕ) =
        (((a : ℤ) - (b : ℤ)) % 2 ^ 32).toNat := by
      have h1 : (2 : ℕ) ^ 32 = 4294967296 := by norm_num
      have h2 : (2 : ℤ) ^ 32 = 4294967296 := by norm_num
      rw [h1, h2]
      rw [h1] at ha hb
      omega
    have h := runFragment_build_operation .OverflowingSub rc a b
    simp only [overflowFlag, wrappedVal, e1] at h
    simpa using h

/-- Witness for C1 at the concrete boundary inputs a = 4294967295, b = 1
(add overflows, subtract does not). -/
theorem overflowing_arithmetic_correct_witness :
    runFragment (build_operation .OverflowingAdd)
        [MVal.int 1 0, .int 32 4294967295, .int 32 1] =
      some ((if 2 ^ 32 ≤ 4294967295 + 1 then 1 else 0),
        [MVal.int 1 0, .int 32 ((4294967295 + 1) % 2 ^ 32)]) ∧
    runFragment (build_operation .OverflowingSub)
        [MVal.int 1 0, .int 32 4294967295, .int 32 1] =
      some ((if 4294967295 < 1 then 1 else 0),
        [MVal.int 1 0,
         .int 32 (((((4294967295 : ℕ) : ℤ) - ((1 : ℕ) : ℤ)) % 2 ^ 32).toNat)]) :=
  overflowing_arithmetic_correct (MVal.int 1 0) 4294967295 1
    (by norm_num) (by norm_num)

/-- C2 counterexample: the claim says equal inputs exit on successor 0, but
on the equal input pair (0, 0) the fragment built by `build_equal` exits on
successor 1 (the code passes `[1, 0]` to the helper with the true edge
first, as the repository's `u32_equal` test also shows). -/
theorem equal_branch_order_counterexample :
    runFragment build_equal [MVal.int 32 0, MVal.int 32 0] ≠ some (0, []) := by
  decide

/-- C2 amended: the fragment built by `build_equal` branches directly on one
equality comparison, exiting on successor 1 with an empty argument list when
the values are equal and on successor 0 with an empty argument list when they
are unequal; it never fails and consumes no range-check capability. -/
theorem equal_correct (w a b : Nat) :
    runFragment build_equal [.int w a, .int w b] =
      some (if a = b then (1, []) else (0, [])) ∧
    rangeCheckParam .equal = none :=
  ⟨runFragment_build_equal w a b, rfl⟩

/-- Witness for C2 (amended) at the concrete input pair (5, 5). -/
theorem equal_correct_witness :
    runFragment build_equal [.int 32 5, .int 32 5] =
      some (if 5 = 5 then (1, []) else (0, [])) ∧
    rangeCheckParam .equal = none :=
  equal_correct 32 5 5

/-- C3 counterexample: the claim says the zero input exits on successor 1,
but on input 0 the fragment built by `build_is_zero` exits on successor 0
(the code passes `[0, 1]` to the helper with the zero case first, matching
the Sierra convention and the repository's `u32_is_zero` test). -/
theorem is_zero_branch_order_counterexample :
    runFragment (build_is_zero 32) [MVal.int 32 0] ≠ some (1, []) := by
  decide

/-- C3 amended: the fragment built by `build_is_zero` exits on successor 0
carrying no arguments when the input is zero, and on successor 1 carrying the
original value when the input is nonzero. -/
theorem is_zero_correct (w v : Nat) :
    runFragment (build_is_zero w) [.int w v] =
      some (if v = 0 then (0, []) else (1, [.int w v])) ∧
    rangeCheckParam .isZero = none :=
  ⟨runFragment_build_is_zero w v, rfl⟩

/-- Witness for C3 (amended) at the concrete input 7. -/
theorem is_zero_correct_witness :
    runFragment (build_is_zero 32) [.int 32 7] =
      some (if 7 = 0 then (0, []) else (1, [.int 32 7])) ∧
    rangeCheckParam .isZero = none :=
  is_zero_correct 32 7

/-- C4: both exit edges of the fragment built by `build_operation` carry
exactly the argument list (range check, wrapped result) — structurally both
edges list `[arg 0, res 1]`, and on any operands the taken edge carries the
range check followed by the wrapped modular result. -/
theorem wrapped_result_on_both_edges (operator : IntOperator) (rc : MVal)
    (a b : Nat) :
    (Fragment.edges (build_operation operator)).map Edge.args =
      [[Val.arg 0, Val.res 1], [Val.arg 0, Val.res 1]] ∧
    ∃ succ, runFragment (build_operation operator) [rc, .int 32 a, .int 32 b] =
      some (succ, [rc, .int 32 (wrappedVal operator a b)]) :=
  ⟨by cases operator <;> rfl,
   ⟨if overflowFlag operator a b then 1 else 0,
    runFragment_build_operation operator rc a b⟩⟩

/-- Witness for C4 at OverflowingAdd on the concrete operands (2, 3). -/
theorem wrapped_result_on_both_edges_witness :
    (Fragment.edges (build_operation .OverflowingAdd)).map Edge.args =
      [[Val.arg 0, Val.res 1], [Val.arg 0, Val.res 1]] ∧
    ∃ succ, runFragment (build_operation .OverflowingAdd)
        [MVal.int 1 0, .int 32 2, .int 32 3] =
      some (succ, [MVal.int 1 0, .int 32 (wrappedVal .OverflowingAdd 2 3)]) :=
  wrapped_result_on_both_edges .OverflowingAdd (MVal.int 1 0) 2 3

/-- C5: under the precondition that the divisor is nonzero, `build_divmod`
emits unsigned division and unsigned remainder as two separate instructions,
terminates with the single unconditional edge on successor 0 carrying
(range check, quotient, remainder), and quotient and remainder satisfy the
Euclidean identity with the remainder below the divisor. -/
theorem divmod_correct (rc : MVal) (a b : Nat) (hb : b ≠ 0) :
    build_divmod.instrs =
      [⟨.divui, [.arg 1, .arg 2]⟩, ⟨.remui, [.arg 1, .arg 2]⟩] ∧
    build_divmod.term = .br ⟨0, [.arg 0, .res 0, .res 1]⟩ ∧
    runFragment build_divmod [rc, .int 32 a, .int 32 b] =
      some (0, [rc, .int 32 (a / b), .int 32 (a % b)]) ∧
    a / b * b + a % b = a ∧ a % b < b := by
  refine ⟨rfl, rfl, runFragment_build_divmod rc a b hb, ?_,
    Nat.mod_lt a (Nat.pos_of_ne_zero hb)⟩
  rw [Nat.mul_comm]
  exact Nat.div_add_mod a b

/-- Witness for C5 at the concrete dividend 7 and divisor 2. -/
theorem divmod_correct_witness :
    build_divmod.instrs =
      [⟨.divui, [.arg 1, .arg 2]⟩, ⟨.remui, [.arg 1, .arg 2]⟩] ∧
    build_divmod.term = .br ⟨0, [.arg 0, .res 0, .res 1]⟩ ∧
    runFragment build_divmod [MVal.int 1 0, .int 32 7, .int 32 2] =
      some (0, [MVal.int 1 0, .int 32 (7 / 2), .int 32 (7 % 2)]) ∧
    7 / 2 * 2 + 7 % 2 = 7 ∧ 7 % 2 < 2 :=
  divmod_correct (MVal.int 1 0) 7 2 (by norm_num)

/-- C6: for every field-element input below the prime, the fragment built by
`build_from_felt252` exits on the success successor 0 carrying
(range check, the value truncated to 32 bits) — and the truncation equals the
input itself — when the input is at most 2^32 - 1, and exits on the failure
successor 1 carrying only the range check otherwise. -/
theorem from_felt252_correct (rc : MVal) (v : Nat) (hv : v < PRIME) :
    runFragment (build_from_felt252 252 32) [rc, .int 252 v] =
      some (if v ≤ 4294967295 then (0, [rc, .int 32 v]) else (1, [rc])) := by
  have h := runFragment_build_from_felt252 rc v
  by_cases hle : v ≤ 4294967295
  · rw [h]
    simp only [hle, if_true]
    have hv32 : v % 2 ^ 32 = v := Nat.mod_eq_of_lt (by omega)
    rw [hv32]
  · rw [h]
    simp [hle]

/-- Witness for C6 at the out-of-range concrete input 2^32 = 4294967296. -/
theorem from_felt252_correct_witness :
    runFragment (build_from_felt252 252 32) [MVal.int 1 0, .int 252 4294967296] =
      some (if 4294967296 ≤ 4294967295 then (0, [MVal.int 1 0, .int 32 4294967296])
        else (1, [MVal.int 1 0])) :=
  from_felt252_correct (MVal.int 1 0) 4294967296 (by norm_num [PRIME])

/-- C7: for every representable 32-bit value, the fragment built by
`build_to_felt252` exits unconditionally on successor 0 with the zero-extended
value, and feeding that value to the fragment built by `build_from_felt252`
takes the success successor 0 and returns exactly the original value. -/
theorem widen_narrow_roundtrip (rc : MVal) (v : Nat) (hv : v < 2 ^ 32) :
    runFragment (build_to_felt252 252) [.int 32 v] = some (0, [.int 252 v]) ∧
    runFragment (build_from_felt252 252 32) [rc, .int 252 v] =
      some (0, [rc, .int 32 v]) := by
  have h := runFragment_build_from_felt252 rc v
  have hle : v ≤ 4294967295 := by omega
  refine ⟨runFragment_build_to_felt252 v, ?_⟩
  rw [h]
  simp only [hle, if_true]
  rw [Nat.mod_eq_of_lt hv]

/-- Witness for C7 at the concrete value 4294967295 = 2^32 - 1. -/
theorem widen_narrow_roundtrip_witness :
    runFragment (build_to_felt252 252) [.int 32 4294967295] =
      some (0, [.int 252 4294967295]) ∧
    runFragment (build_from_felt252 252 32) [MVal.int 1 0, .int 252 4294967295] =
      some (0, [MVal.int 1 0, .int 32 4294967295]) :=
  widen_narrow_roundtrip (MVal.int 1 0) 4294967295 (by norm_num)

/-- C8: each validating routine (`build_operation`, `build_divmod`,
`build_from_felt252`) places exactly one occurrence of the range-check
capability (its entry argument 0) in the argument list of every exit edge it
emits, and the capability parameter table records that exactly these three
routines consume a range check while the other four bind none. -/
theorem capability_threading (operator : IntOperator) (fty rty : Nat) :
    ((build_operation operator).edges.all
        (fun e => decide (e.args.count (Val.arg 0) = 1)) = true) ∧
    (build_divmod.edges.all
        (fun e => decide (e.args.count (Val.arg 0) = 1)) = true) ∧
    ((build_from_felt252 fty rty).edges.all
        (fun e => decide (e.args.count (Val.arg 0) = 1)) = true) ∧
    rangeCheckParam .operation = some 0 ∧
    rangeCheckParam .divmod = some 0 ∧
    rangeCheckParam .fromFelt252 = some 0 ∧
    rangeCheckParam .const = none ∧
    rangeCheckParam .equal = none ∧
    rangeCheckParam .isZero = none ∧
    rangeCheckParam .toFelt252 = none := by
  cases operator <;>
    exact ⟨rfl, rfl, rfl, rfl, rfl, rfl, rfl, rfl, rfl, rfl⟩

/-- Witness for C8 at OverflowingAdd and the concrete resolved types
(252, 32). -/
theorem capability_threading_witness :
    ((build_operation .OverflowingAdd).edges.all
        (fun e => decide (e.args.count (Val.arg 0) = 1)) = true) ∧
    (build_divmod.edges.all
        (fun e => decide (e.args.count (Val.arg 0) = 1)) = true) ∧
    ((build_from_felt252 252 32).edges.all
        (fun e => decide (e.args.count (Val.arg 0) = 1)) = true) ∧
    rangeCheckParam .operation = some 0 ∧
    rangeCheckParam .divmod = some 0 ∧
    rangeCheckParam .fromFelt252 = some 0 ∧
    rangeCheckParam .const = none ∧
    rangeCheckParam .equal = none ∧
    rangeCheckParam .isZero = none ∧
    rangeCheckParam .toFelt252 = none :=
  capability_threading .OverflowingAdd 252 32

/-- C9: the dispatcher `build` yields the immediate unimplemented failure
exactly on the SquareRoot and WideMul selectors — emitting no fragment there —
and on every other selector produces the fragment of exactly one lowering
routine. -/
theorem dispatch_unimplemented (fty rty vty w : Nat) (sel : Uint32Concrete) :
    (build fty rty vty w sel = .unimplemented ↔
      sel = .SquareRoot ∨ sel = .WideMul) ∧
    (sel = .SquareRoot ∨ sel = .WideMul ∨
      ∃ fr, build fty rty vty w sel = .fragment fr) := by
  cases sel <;> simp [build]

/-- Witness for C9 at the SquareRoot selector and concrete resolved types. -/
theorem dispatch_unimplemented_witness :
    (build 252 32 32 32 .SquareRoot = .unimplemented ↔
      Uint32Concrete.SquareRoot = .SquareRoot ∨
        Uint32Concrete.SquareRoot = .WideMul) ∧
    (Uint32Concrete.SquareRoot = .SquareRoot ∨
      Uint32Concrete.SquareRoot = .WideMul ∨
      ∃ fr, build 252 32 32 32 .SquareRoot = .fragment fr) :=
  dispatch_unimplemented 252 32 32 32 .SquareRoot

/-- C10: in each capability-threading routine the value placed first on every
exit edge is literally the entry block's argument 0 (the incoming range
check), and no emitted instruction in any block of the fragment takes that
value as an operand. -/
theorem capability_passthrough (operator : IntOperator) (fty rty : Nat) :
    ((build_operation operator).edges.all
        (fun e => decide (e.args.head? = some (Val.arg 0))) = true) ∧
    ((build_operation operator).allInstrs.all
        (fun i => decide (Val.arg 0 ∉ i.operands)) = true) ∧
    (build_divmod.edges.all
        (fun e => decide (e.args.head? = some (Val.arg 0))) = true) ∧
    (build_divmod.allInstrs.all
        (fun i => decide (Val.arg 0 ∉ i.operands)) = true) ∧
    ((build_from_felt252 fty rty).edges.all
        (fun e => decide (e.args.head? = some (Val.arg 0))) = true) ∧
    ((build_from_felt252 fty rty).allInstrs.all
        (fun i => decide (Val.arg 0 ∉ i.operands)) = true) := by
  cases operator <;> exact ⟨rfl, rfl, rfl, rfl, rfl, rfl⟩

/-- Witness for C10 at OverflowingSub and the concrete resolved types
(252, 32). -/
theorem capability_passthrough_witness :
    ((build_operation .OverflowingSub).edges.all
        (fun e => decide (e.args.head? = some (Val.arg 0))) = true) ∧
    ((build_operation .OverflowingSub).allInstrs.all
        (fun i => decide (Val.arg 0 ∉ i.operands)) = true) ∧
    (build_divmod.edges.all
        (fun e => decide (e.args.head? = some (Val.arg 0))) = true) ∧
    (build_divmod.allInstrs.all
        (fun i => decide (Val.arg 0 ∉ i.operands)) = true) ∧
    ((build_from_felt252 252 32).edges.all
        (fun e => decide (e.args.head? = some (Val.arg 0))) = true) ∧
    ((build_from_felt252 252 32).allInstrs.all
        (fun i => decide (Val.arg 0 ∉ i.operands)) = true) :=
  capability_passthrough .OverflowingSub 252 32

end Uint32
